import Mathlib

/-!
Verification of the METARMap repository (`metar.py`, `displaymetar.py`,
`pixelsoff.py`) against its natural-language specification.

The development is a shallow embedding of the data-normalization /
classification pipeline and the animation scheduler of `metar.py`:

* Python strings are `String` / `List Char`; only ASCII text is modelled
  (METAR reports and station identifiers are ASCII).
* Python `float` values are modelled as exact rationals (`ℚ`); binary
  floating-point rounding, `inf`/`nan` literals and underscore digit
  separators in numeric literals are outside the model.
* The configured RGB color tuples are modelled symbolically: the renderer
  is proved to select a particular configured color constant, not a
  particular RGB triple.
* `math.sin` / `math.cos` / `math.atan2` are modelled by the corresponding
  real functions, so the haversine distance is a (noncomputable) real.
-/

namespace METARMap

/-! ## Character-level helpers (Python `str.strip`, `\w`, `\s`, `\b`) -/

/-- ASCII whitespace recognized by Python `str.strip()` and by the regex
class `\s` (space, tab, newline, carriage return, vertical tab, form feed). -/
def isSpaceChar (c : Char) : Bool :=
  c = ' ' || c = '\t' || c = '\n' || c = '\r' || c = Char.ofNat 11 || c = Char.ofNat 12

/-- Word characters for the regex class `\w` (ASCII letter, digit or
underscore); used to decide `\b` word boundaries. -/
def isWordChar (c : Char) : Bool :=
  c.isAlpha || c.isDigit || c = '_'

/-- Python `str.strip()`: remove leading and trailing whitespace. -/
def pyStrip (s : String) : String :=
  ⟨((s.data.dropWhile isSpaceChar).reverse.dropWhile isSpaceChar).reverse⟩

/-! ## Python numeric conversions (`float(str)`, `int(float)`, `round(float)`) -/

/-- Numeric value of a list of decimal digit characters. -/
def digitsVal (l : List Char) : ℕ :=
  l.foldl (fun a c => a * 10 + (c.toNat - 48)) 0

/-- A nonempty all-digit character list. -/
def allDigits (l : List Char) : Bool :=
  !l.isEmpty && l.all Char.isDigit

/-- Mantissa of a Python float literal: `digits`, `digits.`, `digits.digits`
or `.digits` (at least one digit overall, at most one dot). -/
def mantissaVal (l : List Char) : Option ℚ :=
  match l.findIdx? (fun c => c = '.') with
  | none => if allDigits l then some (digitsVal l) else none
  | some i =>
    let ip := l.take i
    let fp := l.drop (i + 1)
    if fp.any (fun c => c = '.') then none
    else if ip.all Char.isDigit && fp.all Char.isDigit && (!ip.isEmpty || !fp.isEmpty) then
      some ((digitsVal ip : ℚ) + (digitsVal fp : ℚ) / ((10 : ℚ) ^ fp.length))
    else none

/-- Exponent part of a Python float literal: optionally signed digits. -/
def expVal (l : List Char) : Option ℤ :=
  match l with
  | '+' :: r => if allDigits r then some ((digitsVal r : ℤ)) else none
  | '-' :: r => if allDigits r then some (-(digitsVal r : ℤ)) else none
  | r => if allDigits r then some ((digitsVal r : ℤ)) else none

/-- Unsigned Python float literal: mantissa with optional `e`/`E` exponent. -/
def pyFloatUnsigned (l : List Char) : Option ℚ :=
  match l.findIdx? (fun c => c = 'e' || c = 'E') with
  | none => mantissaVal l
  | some i =>
    match mantissaVal (l.take i), expVal (l.drop (i + 1)) with
    | some m, some e => some (m * (10 : ℚ) ^ e)
    | _, _ => none

/-- Python `float(s)` on an already-stripped string: optional sign then an
unsigned float literal.  `inf` / `nan` literals are not modelled (they do
not occur in METAR payload fields). -/
def pyFloatOpt (s : String) : Option ℚ :=
  match s.data with
  | '+' :: rest => pyFloatUnsigned rest
  | '-' :: rest => (pyFloatUnsigned rest).map (fun q => -q)
  | rest => pyFloatUnsigned rest

/-- Python `int(x)` on a float: truncation toward zero (`Int.div` is
T-division, rounding toward zero, matching `int(-3.5) = -3`; the `/`
operator on `ℤ` would be Euclidean division, i.e. floor here). -/
def pyTrunc (q : ℚ) : ℤ :=
  q.num.div (q.den : ℤ)

/-- Python `round(x)` on a float: round half to even. -/
def pyRound (q : ℚ) : ℤ :=
  let f := ⌊q⌋
  if q - (f : ℚ) < 1 / 2 then f
  else if (1 : ℚ) / 2 < q - (f : ℚ) then f + 1
  else if f % 2 = 0 then f else f + 1

/-! ## Raw JSON field values

A METAR payload field as seen by `location.get(...)`: JSON `null`, a JSON
string, or a JSON integer.  (Fractional JSON numbers appear only in fields
no claim depends on and are not modelled.) -/

inductive PyVal
  | vNull
  | vStr (s : String)
  | vInt (n : ℤ)
deriving DecidableEq

/-- Python `str(value)`. -/
def pyStr : PyVal → String
  | .vNull => "None"
  | .vStr s => s
  | .vInt n => toString n

/-! ## Safe parsing helpers (`metar.py` lines 160–179)

`safe_int(value, default) = int(float(str(value).strip() or default))`:
on an empty/whitespace-only string the default itself is converted
(`int(float(default))`), on a parse failure the default is returned as-is.
Defaults are modelled as rationals (Python floats); the return value is a
rational so that both the integer results and a returned float default are
expressible. -/

def safe_int (value : PyVal) (default : ℚ) : ℚ :=
  let s := pyStrip (pyStr value)
  if s = "" then ((pyTrunc default : ℤ) : ℚ)
  else
    match pyFloatOpt s with
    | some q => ((pyTrunc q : ℤ) : ℚ)
    | none => default

/-- `safe_float(value, default) = float(str(value).strip() or default)`. -/
def safe_float (value : PyVal) (default : ℚ) : ℚ :=
  let s := pyStrip (pyStr value)
  if s = "" then default
  else
    match pyFloatOpt s with
    | some q => q
    | none => default

/-- `safe_str(value, default)`: `str(value).strip()` unless the value is
`None` or the literal string `"None"`, in which case the default. -/
def safe_str (value : PyVal) (default : String) : String :=
  match value with
  | .vNull => default
  | .vStr s => if s = "None" then default else pyStrip s
  | .vInt n => pyStrip (toString n)

/-- `safe_round(value, default) = round(float(str(value).strip() or default))`. -/
def safe_round (value : PyVal) (default : ℚ) : ℚ :=
  let s := pyStrip (pyStr value)
  if s = "" then ((pyRound default : ℤ) : ℚ)
  else
    match pyFloatOpt s with
    | some q => ((pyRound q : ℤ) : ℚ)
    | none => default

/-! ## Lightning detection (`metar.py` lines 204–207, 257–261)

The compiled form of the Python regex

  `\b(VCTS|[-+]?TS(?:RA|SN|PL|GR|SG|GS|SH|UP|SP|SNRA)?|LTG(?:IC|CC|CG|CA)?|(?:FRQ|OCNL|CONS|DSNT)\s+LTG)\b`

searched with `re.search` over the upper-cased raw report, together with
the whole-word search for `TSNO`.  `re.search` tries every start position;
optional groups and alternations are resolved by backtracking, so a
position matches exactly when some choice of alternative/option matches
with the surrounding word boundaries. -/

/-- Character at a position, as an optional lookup (`none` past the end). -/
def wordAt (s : List Char) (i : ℕ) : Bool :=
  (s.get? i).elim false isWordChar

/-- Whitespace test at a position (`false` past the end). -/
def spaceAt (s : List Char) (i : ℕ) : Bool :=
  (s.get? i).elim false isSpaceChar

/-- Regex `\b` at position `i` (between `s[i-1]` and `s[i]`; positions
outside the text count as non-word). -/
def boundaryAt (s : List Char) (i : ℕ) : Bool :=
  match i with
  | 0 => wordAt s 0
  | j + 1 => wordAt s j != wordAt s (j + 1)

/-- The literal `w` occurs in `s` starting at position `i`. -/
def litAt (s : List Char) (i : ℕ) (w : List Char) : Bool :=
  match w with
  | [] => true
  | c :: cs => decide (s.get? i = some c) && litAt s (i + 1) cs

def vctsTok : List Char := ['V', 'C', 'T', 'S']
def tsTok : List Char := ['T', 'S']
def ltgTok : List Char := ['L', 'T', 'G']
def tsnoTok : List Char := ['T', 'S', 'N', 'O']

/-- Options of the group `(?:RA|SN|PL|GR|SG|GS|SH|UP|SP|SNRA)?` including
the empty (group absent) choice. -/
def tsSuffixes : List (List Char) :=
  [[], ['R', 'A'], ['S', 'N'], ['P', 'L'], ['G', 'R'], ['S', 'G'],
   ['G', 'S'], ['S', 'H'], ['U', 'P'], ['S', 'P'], ['S', 'N', 'R', 'A']]

/-- Options of the group `(?:IC|CC|CG|CA)?` including the empty choice. -/
def ltgSuffixes : List (List Char) :=
  [[], ['I', 'C'], ['C', 'C'], ['C', 'G'], ['C', 'A']]

/-- The words of the group `(?:FRQ|OCNL|CONS|DSNT)`. -/
def freqWords : List (List Char) :=
  [['F', 'R', 'Q'], ['O', 'C', 'N', 'L'], ['C', 'O', 'N', 'S'], ['D', 'S', 'N', 'T']]

/-- Whole-word occurrence of `w` at `i`: the word boundary before, the
literal, and the word boundary after. -/
def wholeWordB (s : List Char) (i : ℕ) (w : List Char) : Bool :=
  boundaryAt s i && litAt s i w && boundaryAt s (i + w.length)

/-- Alternative `VCTS` (with the surrounding `\b`s). -/
def altVCTS (s : List Char) (i : ℕ) : Bool :=
  wholeWordB s i vctsTok

/-- Suffix part of the `TS` alternative at position `j` (just past `TS`):
some optional-group choice followed by the closing `\b`. -/
def tsSufCheck (s : List Char) (j : ℕ) : Bool :=
  tsSuffixes.any (fun suf => litAt s j suf && boundaryAt s (j + suf.length))

/-- Alternative `[-+]?TS(?:…)?`: either no sign (so `TS` starts at the
match position) or a sign character consumed first; the leading `\b` is
checked at the match position in both cases. -/
def altTS (s : List Char) (i : ℕ) : Bool :=
  (boundaryAt s i && litAt s i tsTok && tsSufCheck s (i + 2)) ||
  (boundaryAt s i && (litAt s i ['-'] || litAt s i ['+']) &&
   litAt s (i + 1) tsTok && tsSufCheck s (i + 3))

/-- Alternative `LTG(?:IC|CC|CG|CA)?`. -/
def altLTG (s : List Char) (i : ℕ) : Bool :=
  boundaryAt s i && litAt s i ltgTok &&
  ltgSuffixes.any (fun suf => litAt s (i + 3) suf && boundaryAt s (i + 3 + suf.length))

/-- Trailing `LTG\b` of the frequency-qualified alternative, matched
against the remainder of the text: `LTG` then no word character. -/
def ltgClose (l : List Char) : Bool :=
  litAt l 0 ltgTok && !(wordAt l 3)

/-- `\s+LTG\b` matched against a remainder list: at least one whitespace
character, then `LTG` with the closing boundary. -/
def spacesLtgL : List Char → Bool
  | [] => false
  | c :: rest => isSpaceChar c && (ltgClose rest || spacesLtgL rest)

/-- Alternative `(?:FRQ|OCNL|CONS|DSNT)\s+LTG`. -/
def altFreqLTG (s : List Char) (i : ℕ) : Bool :=
  boundaryAt s i &&
  freqWords.any (fun w => litAt s i w && spacesLtgL (s.drop (i + w.length)))

/-- One match attempt of the full pattern at position `i`. -/
def patternAt (s : List Char) (i : ℕ) : Bool :=
  altVCTS s i || altTS s i || altLTG s i || altFreqLTG s i

/-- `re.search(pattern, s)`: some start position (including the position
one past the last character) matches. -/
def patternFound (s : List Char) : Bool :=
  (List.range (s.length + 1)).any (fun i => patternAt s i)

/-- One match attempt of `\bTSNO\b` at position `j`. -/
def tsnoAt (s : List Char) (j : ℕ) : Bool :=
  wholeWordB s j tsnoTok

/-- `re.search(r"\bTSNO\b", s)`. -/
def tsnoFound (s : List Char) : Bool :=
  (List.range (s.length + 1)).any (fun j => tsnoAt s j)

/-- Python `str.upper()` restricted to ASCII text. -/
def pyUpper (s : String) : String :=
  ⟨s.data.map Char.toUpper⟩

/-- Upper-cased character data of a raw report. -/
def upperData (s : String) : List Char :=
  (pyUpper s).data

/-- The classifier's lightning flag (`metar.py` lines 257–261):
`not re.search(r"\bTSNO\b", rawOb.upper()) and bool(re.search(pattern, rawOb.upper()))`. -/
def lightningOf (rawOb : String) : Bool :=
  !tsnoFound (upperData rawOb) && patternFound (upperData rawOb)

/-! ## Configuration (the subset of `config.json` the classified pipeline reads) -/

structure Config where
  activateWindAnimation : Bool
  activateLightningAnimation : Bool
  fadeInsteadOfBlink : Bool
  windBlinkThreshold : ℚ
  highWindsThreshold : ℚ
  alwaysBlinkForGusts : Bool
  activateExternalDisplay : Bool
  replaceCatWithClosest : Bool
deriving DecidableEq

/-! ## Station classifier (`metar.py` lines 199–292)

Only the fields some claim depends on are carried in the derived
`Condition`; the remaining normalized fields (temperature, dewpoint,
altimeter, …) are produced by the same `safe_*` helpers and do not feed
back into any classified output. -/

structure Condition where
  flightCategory : String
  windSpeed : ℚ
  windGust : Bool
  windGustSpeed : ℚ
  lightning : Bool
deriving DecidableEq

structure StationMeta where
  icaoId : String
  lat : ℚ
  lon : ℚ
  fltCat : String
deriving DecidableEq

/-- A raw per-station record from the fetched JSON payload (the fields the
claims depend on). -/
structure RawRecord where
  icaoId : PyVal
  wspd : PyVal
  wgst : PyVal
  rawOb : PyVal
  fltCat : PyVal
  lat : PyVal
  lon : PyVal
deriving DecidableEq

/-- Gust-blink decision (`metar.py` line 227):
`True if ALWAYS_BLINK_FOR_GUSTS or wgst_speed > WIND_BLINK_THRESHOLD else False`. -/
def windGustFlag (cfg : Config) (wgstField : PyVal) : Bool :=
  cfg.alwaysBlinkForGusts || decide (safe_int wgstField 0 > cfg.windBlinkThreshold)

/-- State threaded through the per-record loop: the Condition map (with
later records overwriting earlier ones at the same key), the ordered list
of appended display identifiers, the StationMeta list and the station
count. -/
structure ClassifyOut where
  dict : String → Option Condition
  stationList : List String
  meta : List StationMeta
  count : ℕ

/-- Processing of one payload record (loop body, `metar.py` lines 209–290). -/
def classifyStep (cfg : Config) (displayairports : Option (List String))
    (st : ClassifyOut) (r : RawRecord) : ClassifyOut :=
  let icaoId := safe_str r.icaoId ""
  let wspd := safe_int r.wspd 0
  let wgst_speed := safe_int r.wgst 0
  let wgst := windGustFlag cfg r.wgst
  let rawOb := safe_str r.rawOb ""
  let fltCat := safe_str r.fltCat ""
  let lat := safe_float r.lat 0
  let lon := safe_float r.lon 0
  let lightning := lightningOf rawOb
  let st1 :=
    if icaoId ≠ "" then
      { st with
        count := st.count + 1
        dict := fun k =>
          if k = icaoId then
            some { flightCategory := fltCat, windSpeed := wspd, windGust := wgst,
                   windGustSpeed := wgst_speed, lightning := lightning }
          else st.dict k
        meta := st.meta ++ [{ icaoId := icaoId, lat := lat, lon := lon, fltCat := fltCat }] }
    else st
  let inDisplay :=
    match displayairports with
    | none => true
    | some l => decide (icaoId ∈ l)
  if inDisplay then { st1 with stationList := st1.stationList ++ [icaoId] } else st1

/-- The empty classifier state. -/
def emptyOut : ClassifyOut :=
  { dict := fun _ => none, stationList := [], meta := [], count := 0 }

/-- The whole parse loop over the payload. -/
def classify (cfg : Config) (recs : List RawRecord)
    (displayairports : Option (List String)) : ClassifyOut :=
  recs.foldl (classifyStep cfg displayairports) emptyOut

/-! ## Haversine distance and nearest-station fallback (`metar.py` 182–189, 294–308) -/

/-- Python `math.atan2(y, x)`. -/
noncomputable def atan2 (y x : ℝ) : ℝ :=
  if 0 < x then Real.arctan (y / x)
  else if x < 0 ∧ 0 ≤ y then Real.arctan (y / x) + Real.pi
  else if x < 0 ∧ y < 0 then Real.arctan (y / x) - Real.pi
  else if x = 0 ∧ 0 < y then Real.pi / 2
  else if x = 0 ∧ y < 0 then -(Real.pi / 2)
  else 0

/-- Great-circle distance (`haversine`), Earth radius 6371 km, inputs in
degrees converted by `math.radians`. -/
noncomputable def haversine (lat1 lon1 lat2 lon2 : ℚ) : ℝ :=
  let rad : ℚ → ℝ := fun x => (x : ℝ) * Real.pi / 180
  let p1 := rad lat1
  let p2 := rad lat2
  let dlat := p2 - p1
  let dlon := rad lon2 - rad lon1
  let a := Real.sin (dlat / 2) ^ 2 +
    Real.cos p1 * Real.cos p2 * Real.sin (dlon / 2) ^ 2
  let c := 2 * atan2 (Real.sqrt a) (Real.sqrt (1 - a))
  6371 * c

/-- `valid_stations` (`metar.py` line 295): entries with a non-empty
category and Python-truthy (non-zero) coordinates. -/
def validStations (metas : List StationMeta) : List StationMeta :=
  metas.filter (fun s => s.fltCat ≠ "" ∧ s.lat ≠ 0 ∧ s.lon ≠ 0)

/-- Inner loop of the resolver: `nearest` starts as `None` with distance
`inf`, so the first reference always replaces it; afterwards a reference
replaces the current best exactly when strictly closer.  `nearestGo d b l`
is the final best after starting from current best `b`. -/
noncomputable def nearestGo (d : StationMeta → ℝ) (b : StationMeta) :
    List StationMeta → StationMeta
  | [] => b
  | ref :: rest =>
    if d ref < d b then nearestGo d ref rest else nearestGo d b rest

/-- Result of the inner loop over `refs` (`None` exactly when `refs` is
empty, because any finite distance beats the initial `inf`). -/
noncomputable def nearestRef (d : StationMeta → ℝ) :
    List StationMeta → Option StationMeta
  | [] => none
  | ref :: rest => some (nearestGo d ref rest)

/-- The category the fallback resolver leaves in the Condition of the
station described by `s` (`metar.py` lines 297–308): overwritten with the
nearest valid reference's category when the guard
`not fltCat and lat and lon and valid_stations and REPLACE_CAT_WITH_CLOSEST`
holds, unchanged otherwise. -/
noncomputable def resolvedCat (enabled : Bool) (metas : List StationMeta)
    (s : StationMeta) : String :=
  let valid := validStations metas
  if s.fltCat = "" ∧ s.lat ≠ 0 ∧ s.lon ≠ 0 ∧ valid ≠ [] ∧ enabled = true then
    match nearestRef (fun r => haversine s.lat s.lon r.lat r.lon) valid with
    | some r => r.fltCat
    | none => s.fltCat
  else s.fltCat

/-! ## Animation renderer (`metar.py` lines 327–358)

Colors are symbolic: the renderer selects one of the configured color
constants. -/

inductive Color
  | vfr | vfrFade | mvfr | mvfrFade | ifr | ifrFade | lifr | lifrFade
  | clear | lightning | highWinds
deriving DecidableEq

/-- `windy` (`metar.py` line 342). -/
def windyFlag (cfg : Config) (windCycle : Bool) (c : Condition) : Bool :=
  cfg.activateWindAnimation && windCycle &&
  (decide (c.windSpeed ≥ cfg.windBlinkThreshold) || c.windGust)

/-- `highWinds` (`metar.py` line 343). -/
def highWindsFlag (cfg : Config) (windCycle : Bool) (c : Condition) : Bool :=
  windyFlag cfg windCycle c && decide (cfg.highWindsThreshold ≠ -1) &&
  (decide (c.windSpeed ≥ cfg.highWindsThreshold) ||
   decide (c.windGustSpeed ≥ cfg.highWindsThreshold))

/-- `lightningConditions` (`metar.py` line 344). -/
def lightningFlag (cfg : Config) (windCycle : Bool) (c : Condition) : Bool :=
  cfg.activateLightningAnimation && !windCycle && c.lightning

/-- The conditional expression repeated once per category
(`metar.py` lines 346, 348, 350, 352), with that category's base and fade
colors:
`BASE if not (windy or lightningConditions) else COLOR_LIGHTNING if
lightningConditions else COLOR_HIGH_WINDS if highWinds else (FADE if
FADE_INSTEAD_OF_BLINK else COLOR_CLEAR) if windy else COLOR_CLEAR`. -/
def condExpr (fadeMode windy highWinds lightningC : Bool)
    (base fade : Color) : Color :=
  if !(windy || lightningC) then base
  else if lightningC then Color.lightning
  else if highWinds then Color.highWinds
  else if windy then (if fadeMode then fade else Color.clear)
  else Color.clear

/-- Color computed for one airport in one tick (`metar.py` lines 335–354):
`COLOR_CLEAR` when there is no Condition record, otherwise the per-category
conditional; any category other than VFR/MVFR/IFR/LIFR falls to the final
`else` branch and yields `COLOR_CLEAR`. -/
def renderColor (cfg : Config) (windCycle : Bool) (oc : Option Condition) : Color :=
  match oc with
  | none => Color.clear
  | some c =>
    let windy := windyFlag cfg windCycle c
    let hw := highWindsFlag cfg windCycle c
    let lc := lightningFlag cfg windCycle c
    if c.flightCategory = "VFR" then
      condExpr cfg.fadeInsteadOfBlink windy hw lc Color.vfr Color.vfrFade
    else if c.flightCategory = "MVFR" then
      condExpr cfg.fadeInsteadOfBlink windy hw lc Color.mvfr Color.mvfrFade
    else if c.flightCategory = "IFR" then
      condExpr cfg.fadeInsteadOfBlink windy hw lc Color.ifr Color.ifrFade
    else if c.flightCategory = "LIFR" then
      condExpr cfg.fadeInsteadOfBlink windy hw lc Color.lifr Color.lifrFade
    else Color.clear

/-- One tick's LED writes over the airport file entries: `NULL` slots are
skipped (`none`, the LED is not written but the index advances because the
list position is kept), every other slot is written with `renderColor`. -/
def ledFrame (cfg : Config) (windCycle : Bool) (dict : String → Option Condition)
    (airports : List String) : List (Option Color) :=
  airports.map (fun a => if a = "NULL" then none else some (renderColor cfg windCycle (dict a)))

/-! ## Animation loop bookkeeping (`metar.py` lines 320–390) -/

/-- `looplimit` (`metar.py` line 320). -/
def loopLimit (cfg : Config) (blinkTotalSeconds blinkSpeed : ℚ) : ℤ :=
  if cfg.activateWindAnimation || cfg.activateLightningAnimation ||
     cfg.activateExternalDisplay then
    pyRound (blinkTotalSeconds / blinkSpeed)
  else 1

/-- Number of body executions of `while looplimit > 0: …; looplimit -= 1`
started with the given value. -/
def ticksRun (limit : ℤ) : ℕ :=
  if h : 0 < limit then ticksRun (limit - 1) + 1 else 0
termination_by limit.toNat
decreasing_by
  omega

/-- `display_list` (`metar.py` line 325): the optional subset file when
Python-truthy (present and non-empty), else the parsed station list. -/
def displayList (displayairports : Option (List String))
    (stationList : List String) : List String :=
  match displayairports with
  | none => stationList
  | some l => if l.isEmpty then stationList else l

/-- Rotation of `displayAirportCounter` (`metar.py` line 384):
`counter + 1 if counter < numAirports - 1 else 0`, over Python integers. -/
def rotateStep (numAirports counter : ℤ) : ℤ :=
  if counter < numAirports - 1 then counter + 1 else 0

/-! ## Startup sequence (`metar.py` lines 94–157 and onward)

The order of the observable startup effects: the LED strip object is
created at line 136, the airports file is read at line 139, the optional
display-subset file at line 143, and the airport-count precondition is
checked at line 152; on violation the script warns and quits, otherwise it
fetches, parses, resolves and animates (the external display, when
enabled, is only initialized after parsing, line 313). -/

inductive StartupEvent
  | printHeader | ledInit | readAirports | readDisplayAirports
  | warnTooMany | quitEarly | fetchData | parseData | resolveFallback
  | displayInit | animate
deriving DecidableEq

def startupTrace (airports : List String) (ledCount : ℕ) (extDisplay : Bool) :
    List StartupEvent :=
  [.printHeader, .ledInit, .readAirports, .readDisplayAirports] ++
  (if airports.length > ledCount then [.warnTooMany, .quitEarly]
   else [.fetchData, .parseData, .resolveFallback] ++
     (if extDisplay then [.displayInit] else []) ++ [.animate])

/-! ## Specification-side definitions

These follow the spec's words (not the source) and are compared with the
source-derived definitions above. -/

/-- Modelled from the spec: the base category color table — VFR/MVFR/IFR/
LIFR map to their configured colors, anything else (including Unknown) to
the off/clear color. -/
def baseColorOf (cat : String) : Color :=
  if cat = "VFR" then Color.vfr
  else if cat = "MVFR" then Color.mvfr
  else if cat = "IFR" then Color.ifr
  else if cat = "LIFR" then Color.lifr
  else Color.clear

/-- Modelled from the spec: the fade variant of the category color. -/
def fadeColorOf (cat : String) : Color :=
  if cat = "VFR" then Color.vfrFade
  else if cat = "MVFR" then Color.mvfrFade
  else if cat = "IFR" then Color.ifrFade
  else if cat = "LIFR" then Color.lifrFade
  else Color.clear

/-- Modelled from the spec: the claimed final color precedence — lightning
first, then high winds, then the wind fade/off treatment, else the base
category color. -/
def specColor (cfg : Config) (windCycle : Bool) (c : Condition) : Color :=
  if lightningFlag cfg windCycle c then Color.lightning
  else if highWindsFlag cfg windCycle c then Color.highWinds
  else if windyFlag cfg windCycle c then
    (if cfg.fadeInsteadOfBlink then fadeColorOf c.flightCategory else Color.clear)
  else baseColorOf c.flightCategory

/-- Whole-word occurrence as a proposition: boundary, literal, boundary. -/
def WholeWordAt (s : List Char) (i : ℕ) (w : List Char) : Prop :=
  boundaryAt s i = true ∧ litAt s i w = true ∧ boundaryAt s (i + w.length) = true

/-- The claim's frequency-qualified lightning mention: a frequency word as
a left-delimited token, one or more whitespace characters, then `LTG`
closed by a word boundary. -/
def FreqLtgAt (s : List Char) (i : ℕ) : Prop :=
  boundaryAt s i = true ∧
  ∃ w ∈ freqWords, litAt s i w = true ∧
    ∃ k, 1 ≤ k ∧ (∀ t, t < k → spaceAt s (i + w.length + t) = true) ∧
      litAt s (i + w.length + k) ltgTok = true ∧
      wordAt s (i + w.length + k + 3) = false

/-- The claim's recognized thunderstorm/lightning token at a position:
`VCTS`, optionally signed `TS` with an optional precipitation suffix,
`LTG` with an optional type suffix, or a frequency-qualified `LTG`, each
as a whole word. -/
def SpecTokenAt (s : List Char) (i : ℕ) : Prop :=
  WholeWordAt s i vctsTok ∨
  (∃ suf ∈ tsSuffixes,
    WholeWordAt s i (tsTok ++ suf) ∨
    WholeWordAt s i ('-' :: (tsTok ++ suf)) ∨
    WholeWordAt s i ('+' :: (tsTok ++ suf))) ∨
  (∃ suf ∈ ltgSuffixes, WholeWordAt s i (ltgTok ++ suf)) ∨
  FreqLtgAt s i

/-- Whole-word occurrence of the thunderstorm-not-observed token. -/
def TsnoAt (s : List Char) (j : ℕ) : Prop :=
  WholeWordAt s j tsnoTok

/-! ## Theorems -/

/-! ### Lemmas about the literal matcher -/

theorem litAt_append (s a b : List Char) :
    ∀ i, litAt s i (a ++ b) = (litAt s i a && litAt s (i + a.length) b) := by
  induction a with
  | nil => intro i; simp [litAt]
  | cons c cs ih =>
    intro i
    simp only [List.cons_append, litAt, List.length_cons, Bool.and_assoc,
      List.append_eq]
    rw [show i + (cs.length + 1) = i + 1 + cs.length from by omega, ih (i + 1)]

theorem litAt_cons_bound (s : List Char) (i : ℕ) (c : Char) (cs : List Char)
    (h : litAt s i (c :: cs) = true) : i < s.length := by
  simp only [litAt, Bool.and_eq_true, decide_eq_true_eq] at h
  by_contra hle
  push_neg at hle
  rw [List.get?_eq_none.mpr hle] at h
  exact Option.noConfusion h.1

theorem litAt_drop (s : List Char) (j : ℕ) (w : List Char) :
    ∀ t, litAt (s.drop j) t w = litAt s (j + t) w := by
  induction w with
  | nil => intro t; simp [litAt]
  | cons c cs ih =>
    intro t
    simp only [litAt, List.get?_drop, ih (t + 1)]
    rw [show j + t + 1 = j + (t + 1) from by omega]

theorem wordAt_drop (s : List Char) (j t : ℕ) :
    wordAt (s.drop j) t = wordAt s (j + t) := by
  simp [wordAt, List.get?_drop]

theorem spaceAt_drop (s : List Char) (j t : ℕ) :
    spaceAt (s.drop j) t = spaceAt s (j + t) := by
  simp [spaceAt, List.get?_drop]

theorem wholeWordB_iff (s : List Char) (i : ℕ) (w : List Char) :
    wholeWordB s i w = true ↔ WholeWordAt s i w := by
  simp [wholeWordB, WholeWordAt, Bool.and_eq_true, and_assoc]

/-! ### Characterization of the `\s+LTG\b` tail matcher -/

theorem spacesLtgL_iff (l : List Char) :
    spacesLtgL l = true ↔
    ∃ k, 1 ≤ k ∧ (∀ t, t < k → spaceAt l t = true) ∧ ltgClose (l.drop k) = true := by
  induction l with
  | nil =>
    simp only [spacesLtgL, Bool.false_eq_true, false_iff, not_exists]
    rintro k ⟨hk, hsp, -⟩
    have h0 := hsp 0 (by omega)
    simp [spaceAt] at h0
  | cons c rest ih =>
    simp only [spacesLtgL, Bool.and_eq_true, Bool.or_eq_true]
    constructor
    · rintro ⟨hc, hcl | hrec⟩
      · refine ⟨1, le_refl 1, ?_, ?_⟩
        · intro t ht
          have : t = 0 := by omega
          subst this
          simpa [spaceAt] using hc
        · simpa using hcl
      · obtain ⟨k, hk, hsp, hcl⟩ := ih.mp hrec
        refine ⟨k + 1, by omega, ?_, ?_⟩
        · intro t ht
          cases t with
          | zero => simpa [spaceAt] using hc
          | succ t' =>
            have := hsp t' (by omega)
            simpa [spaceAt, List.get?_cons_succ] using this
        · simpa [List.drop_succ_cons] using hcl
    · rintro ⟨k, hk, hsp, hcl⟩
      cases k with
      | zero => omega
      | succ k' =>
        have hc := hsp 0 (by omega)
        simp only [spaceAt, List.get?_cons_zero, Option.elim] at hc
        refine ⟨hc, ?_⟩
        cases k' with
        | zero =>
          left
          simpa using hcl
        | succ k'' =>
          right
          refine ih.mpr ⟨k'' + 1, by omega, ?_, ?_⟩
          · intro t ht
            have := hsp (t + 1) (by omega)
            simpa [spaceAt, List.get?_cons_succ] using this
          · simpa [List.drop_succ_cons] using hcl

theorem spacesLtgL_drop_iff (s : List Char) (j : ℕ) :
    spacesLtgL (s.drop j) = true ↔
    ∃ k, 1 ≤ k ∧ (∀ t, t < k → spaceAt s (j + t) = true) ∧
      litAt s (j + k) ltgTok = true ∧ wordAt s (j + k + 3) = false := by
  rw [spacesLtgL_iff]
  constructor
  · rintro ⟨k, hk, hsp, hcl⟩
    simp only [ltgClose, List.drop_drop, Bool.and_eq_true, Bool.not_eq_true',
      litAt_drop, wordAt_drop] at hcl
    refine ⟨k, hk, ?_, ?_, ?_⟩
    · intro t ht
      have := hsp t ht
      rwa [spaceAt_drop] at this
    · simpa using hcl.1
    · simpa using hcl.2
  · rintro ⟨k, hk, hsp, hlit, hw⟩
    refine ⟨k, hk, ?_, ?_⟩
    · intro t ht
      rw [spaceAt_drop]
      exact hsp t ht
    · simp only [ltgClose, List.drop_drop, Bool.and_eq_true, Bool.not_eq_true',
        litAt_drop, wordAt_drop]
      constructor
      · simpa using hlit
      · simpa using hw

/-! ### Per-alternative characterizations of the lightning pattern -/

theorem litAt_cons (s : List Char) (i : ℕ) (c : Char) (w : List Char) :
    litAt s i (c :: w) = (litAt s i [c] && litAt s (i + 1) w) := by
  simp [litAt]

theorem litAt_cons_iff (s : List Char) (i : ℕ) (c : Char) (w : List Char) :
    litAt s i (c :: w) = true ↔ (litAt s i [c] = true ∧ litAt s (i + 1) w = true) := by
  rw [litAt_cons, Bool.and_eq_true]

theorem wholeWord_split (s : List Char) (i : ℕ) (a suf : List Char) :
    WholeWordAt s i (a ++ suf) ↔
    (boundaryAt s i = true ∧ litAt s i a = true ∧
     litAt s (i + a.length) suf = true ∧
     boundaryAt s (i + a.length + suf.length) = true) := by
  simp only [WholeWordAt, litAt_append, Bool.and_eq_true, List.length_append]
  constructor
  · rintro ⟨hb, ⟨h1, h2⟩, hb2⟩
    refine ⟨hb, h1, h2, ?_⟩
    rw [show i + a.length + suf.length = i + (a.length + suf.length) from by omega]
    exact hb2
  · rintro ⟨hb, h1, h2, hb2⟩
    refine ⟨hb, ⟨h1, h2⟩, ?_⟩
    rw [show i + (a.length + suf.length) = i + a.length + suf.length from by omega]
    exact hb2

theorem altVCTS_iff (s : List Char) (i : ℕ) :
    altVCTS s i = true ↔ WholeWordAt s i vctsTok :=
  wholeWordB_iff s i vctsTok

theorem altTS_iff (s : List Char) (i : ℕ) :
    altTS s i = true ↔
    ∃ suf ∈ tsSuffixes,
      WholeWordAt s i (tsTok ++ suf) ∨ WholeWordAt s i ('-' :: (tsTok ++ suf)) ∨
      WholeWordAt s i ('+' :: (tsTok ++ suf)) := by
  simp only [altTS, tsSufCheck, Bool.or_eq_true, Bool.and_eq_true, List.any_eq_true]
  constructor
  · rintro (⟨⟨hb, hts⟩, suf, hsuf, hs, hb2⟩ |
      ⟨⟨⟨hb, hsgn | hsgn⟩, hts⟩, suf, hsuf, hs, hb2⟩)
    · exact ⟨suf, hsuf, Or.inl ((wholeWord_split s i tsTok suf).mpr ⟨hb, hts, hs, hb2⟩)⟩
    · exact ⟨suf, hsuf, Or.inr (Or.inl
        ((wholeWord_split s i ('-' :: tsTok) suf).mpr
          ⟨hb, (litAt_cons_iff s i '-' tsTok).mpr ⟨hsgn, hts⟩, hs, hb2⟩))⟩
    · exact ⟨suf, hsuf, Or.inr (Or.inr
        ((wholeWord_split s i ('+' :: tsTok) suf).mpr
          ⟨hb, (litAt_cons_iff s i '+' tsTok).mpr ⟨hsgn, hts⟩, hs, hb2⟩))⟩
  · rintro ⟨suf, hsuf, hw | hw | hw⟩
    · obtain ⟨hb, hts, hs, hb2⟩ := (wholeWord_split s i tsTok suf).mp hw
      exact Or.inl ⟨⟨hb, hts⟩, suf, hsuf, hs, hb2⟩
    · obtain ⟨hb, hlit, hs, hb2⟩ := (wholeWord_split s i ('-' :: tsTok) suf).mp hw
      obtain ⟨h1, h2⟩ := (litAt_cons_iff s i '-' tsTok).mp hlit
      exact Or.inr ⟨⟨⟨hb, Or.inl h1⟩, h2⟩, suf, hsuf, hs, hb2⟩
    · obtain ⟨hb, hlit, hs, hb2⟩ := (wholeWord_split s i ('+' :: tsTok) suf).mp hw
      obtain ⟨h1, h2⟩ := (litAt_cons_iff s i '+' tsTok).mp hlit
      exact Or.inr ⟨⟨⟨hb, Or.inr h1⟩, h2⟩, suf, hsuf, hs, hb2⟩

theorem altLTG_iff (s : List Char) (i : ℕ) :
    altLTG s i = true ↔ ∃ suf ∈ ltgSuffixes, WholeWordAt s i (ltgTok ++ suf) := by
  simp only [altLTG, Bool.and_eq_true, List.any_eq_true]
  constructor
  · rintro ⟨⟨hb, hlit⟩, suf, hsuf, hs, hb2⟩
    exact ⟨suf, hsuf, (wholeWord_split s i ltgTok suf).mpr ⟨hb, hlit, hs, hb2⟩⟩
  · rintro ⟨suf, hsuf, hw⟩
    obtain ⟨hb, hlit, hs, hb2⟩ := (wholeWord_split s i ltgTok suf).mp hw
    exact ⟨⟨hb, hlit⟩, suf, hsuf, hs, hb2⟩

theorem altFreqLTG_iff (s : List Char) (i : ℕ) :
    altFreqLTG s i = true ↔ FreqLtgAt s i := by
  simp only [altFreqLTG, Bool.and_eq_true, List.any_eq_true, spacesLtgL_drop_iff,
    FreqLtgAt]

theorem patternAt_iff (s : List Char) (i : ℕ) :
    patternAt s i = true ↔ SpecTokenAt s i := by
  simp only [patternAt, Bool.or_eq_true, or_assoc, SpecTokenAt]
  exact or_congr (altVCTS_iff s i)
    (or_congr (altTS_iff s i) (or_congr (altLTG_iff s i) (altFreqLTG_iff s i)))

theorem specTokenAt_bound (s : List Char) (i : ℕ) (h : SpecTokenAt s i) :
    i < s.length + 1 := by
  have step : ∀ (c : Char) (cs : List Char), litAt s i (c :: cs) = true →
      i < s.length + 1 := by
    intro c cs hl
    have := litAt_cons_bound s i c cs hl
    omega
  rcases h with hw | ⟨suf, -, hw | hw | hw⟩ | ⟨suf, -, hw⟩ | ⟨-, w, hwmem, hlit, -⟩
  · exact step 'V' _ hw.2.1
  · exact step 'T' ('S' :: suf) hw.2.1
  · exact step '-' _ hw.2.1
  · exact step '+' _ hw.2.1
  · exact step 'L' ('T' :: 'G' :: suf) hw.2.1
  · fin_cases hwmem
    · exact step 'F' _ hlit
    · exact step 'O' _ hlit
    · exact step 'C' _ hlit
    · exact step 'D' _ hlit

theorem patternFound_iff (s : List Char) :
    patternFound s = true ↔ ∃ i, SpecTokenAt s i := by
  simp only [patternFound, List.any_eq_true, List.mem_range]
  constructor
  · rintro ⟨i, -, h⟩
    exact ⟨i, (patternAt_iff s i).mp h⟩
  · rintro ⟨i, h⟩
    exact ⟨i, specTokenAt_bound s i h, (patternAt_iff s i).mpr h⟩

theorem tsnoAt_iff (s : List Char) (j : ℕ) :
    tsnoAt s j = true ↔ TsnoAt s j :=
  wholeWordB_iff s j tsnoTok

theorem tsnoFound_iff (s : List Char) :
    tsnoFound s = true ↔ ∃ j, TsnoAt s j := by
  simp only [tsnoFound, List.any_eq_true, List.mem_range]
  constructor
  · rintro ⟨j, -, h⟩
    exact ⟨j, (tsnoAt_iff s j).mp h⟩
  · rintro ⟨j, h⟩
    have hb := litAt_cons_bound s j 'T' ['S', 'N', 'O'] h.2.1
    exact ⟨j, by omega, (tsnoAt_iff s j).mpr h⟩

/-- Claim C2: the classifier flags lightning exactly when the upper-cased
raw report contains one of the recognized thunderstorm/lightning tokens
(VCTS, optionally signed TS with an optional precipitation suffix, LTG
with an optional type suffix, or a frequency-qualified LTG, as whole
words) and contains no whole-word TSNO; in particular any report with a
whole-word TSNO anywhere has lightning = false. -/
theorem claimC2 (raw : String) :
    (lightningOf raw = true ↔
      ((∃ i, SpecTokenAt (upperData raw) i) ∧ ∀ j, ¬ TsnoAt (upperData raw) j)) ∧
    ((∃ j, TsnoAt (upperData raw) j) → lightningOf raw = false) := by
  have hp := patternFound_iff (upperData raw)
  have ht := tsnoFound_iff (upperData raw)
  constructor
  · simp only [lightningOf, Bool.and_eq_true, Bool.not_eq_true']
    constructor
    · rintro ⟨hts, hpat⟩
      refine ⟨hp.mp hpat, fun j hj => ?_⟩
      have htt : tsnoFound (upperData raw) = true := ht.mpr ⟨j, hj⟩
      rw [htt] at hts
      exact Bool.noConfusion hts
    · rintro ⟨hex, hall⟩
      refine ⟨?_, hp.mpr hex⟩
      cases htf : tsnoFound (upperData raw) with
      | false => rfl
      | true =>
        obtain ⟨j, hj⟩ := ht.mp htf
        exact absurd hj (hall j)
  · rintro ⟨j, hj⟩
    have htt : tsnoFound (upperData raw) = true := ht.mpr ⟨j, hj⟩
    simp [lightningOf, htt]

/-- Claim C2 witness: a report containing both a thunderstorm token and
TSNO is classified with lightning = false. -/
theorem claimC2_witness : lightningOf "TS TSNO" = false :=
  (claimC2 "TS TSNO").2 ⟨3, (tsnoAt_iff (upperData "TS TSNO") 3).mp (by decide)⟩

/-- The high-wind indicator only fires in a windy tick. -/
theorem highWindsFlag_windy (cfg : Config) (wc : Bool) (c : Condition)
    (h : highWindsFlag cfg wc c = true) : windyFlag cfg wc c = true := by
  simp only [highWindsFlag, Bool.and_eq_true] at h
  exact h.1.1

/-- Claim C1 (amended): for a station whose flight category is one of
VFR/MVFR/IFR/LIFR, the rendered color follows the claimed precedence
(lightning, then high winds, then wind fade/off, then the base category
color); a station with any other category always renders the off color,
even when lightning is active; and a station with lightning active is
never rendered with a wind-fade or high-wind color. -/
theorem claimC1_amended :
    (∀ (cfg : Config) (wc : Bool) (c : Condition),
      c.flightCategory ∈ (["VFR", "MVFR", "IFR", "LIFR"] : List String) →
      renderColor cfg wc (some c) = specColor cfg wc c) ∧
    (∀ (cfg : Config) (wc : Bool) (c : Condition),
      c.flightCategory ∉ (["VFR", "MVFR", "IFR", "LIFR"] : List String) →
      renderColor cfg wc (some c) = Color.clear) ∧
    (∀ (cfg : Config) (wc : Bool) (c : Condition),
      lightningFlag cfg wc c = true →
      renderColor cfg wc (some c) = Color.lightning ∨
      renderColor cfg wc (some c) = Color.clear) := by
  refine ⟨?_, ?_, ?_⟩
  · intro cfg wc c h
    have hhw := highWindsFlag_windy cfg wc c
    simp only [List.mem_cons, List.not_mem_nil, or_false] at h
    rcases h with hcat | hcat | hcat | hcat <;>
      cases hwi : windyFlag cfg wc c <;>
      cases hhwi : highWindsFlag cfg wc c <;>
      cases hlc : lightningFlag cfg wc c <;>
      cases hf : cfg.fadeInsteadOfBlink <;>
      simp_all [renderColor, specColor, condExpr, baseColorOf, fadeColorOf, hcat]
  · intro cfg wc c h
    simp only [List.mem_cons, List.not_mem_nil, or_false, not_or] at h
    obtain ⟨h1, h2, h3, h4⟩ := h
    simp [renderColor, h1, h2, h3, h4]
  · intro cfg wc c h
    by_cases h1 : c.flightCategory = "VFR" <;>
    by_cases h2 : c.flightCategory = "MVFR" <;>
    by_cases h3 : c.flightCategory = "IFR" <;>
    by_cases h4 : c.flightCategory = "LIFR" <;>
      cases hwi : windyFlag cfg wc c <;>
      simp_all [renderColor, condExpr]

/-- Claim C1 counterexample: a station with a Condition record whose
flight category is empty (Unknown) and whose lightning flag is set, in a
lightning-phase tick (lightning animation on, `windCycle` false), is
rendered with the off color, not the lightning color the claimed
precedence requires. -/
theorem claimC1_counterexample :
    lightningFlag ⟨false, true, false, 5, -1, false, false, false⟩ false
      ⟨"", 0, false, 0, true⟩ = true ∧
    renderColor ⟨false, true, false, 5, -1, false, false, false⟩ false
      (some ⟨"", 0, false, 0, true⟩) = Color.clear ∧
    specColor ⟨false, true, false, 5, -1, false, false, false⟩ false
      ⟨"", 0, false, 0, true⟩ = Color.lightning := by
  refine ⟨by decide, by decide, by decide⟩

/-- Claim C1 witness: a VFR station with lightning and wind active in the
same lightning-phase tick renders the lightning color. -/
theorem claimC1_witness :
    (⟨"VFR", 20, true, 25, true⟩ : Condition).flightCategory ∈
      (["VFR", "MVFR", "IFR", "LIFR"] : List String) ∧
    renderColor ⟨true, true, true, 15, 25, false, false, false⟩ false
      (some ⟨"VFR", 20, true, 25, true⟩) =
      specColor ⟨true, true, true, 15, 25, false, false, false⟩ false
        ⟨"VFR", 20, true, 25, true⟩ :=
  ⟨by decide,
   claimC1_amended.1 ⟨true, true, true, 15, 25, false, false, false⟩ false
     ⟨"VFR", 20, true, 25, true⟩ (by decide)⟩

/-- Claim C5: an airport slot (other than the `NULL` placeholder) whose
Condition is absent, or whose Condition's flight category is outside
VFR/MVFR/IFR/LIFR, is assigned the off/clear color in every tick. -/
theorem claimC5 (cfg : Config) (wc : Bool) (dict : String → Option Condition)
    (airports : List String) (i : ℕ) (a : String)
    (ha : airports.get? i = some a) (hnull : a ≠ "NULL")
    (hcat : ∀ c, dict a = some c →
      c.flightCategory ∉ (["VFR", "MVFR", "IFR", "LIFR"] : List String)) :
    (ledFrame cfg wc dict airports).get? i = some (some Color.clear) := by
  simp only [ledFrame, List.get?_map, ha, Option.map_some']
  rw [if_neg hnull]
  cases hd : dict a with
  | none => simp [renderColor]
  | some c =>
    have h := hcat c hd
    simp only [List.mem_cons, List.not_mem_nil, or_false, not_or] at h
    obtain ⟨h1, h2, h3, h4⟩ := h
    simp [renderColor, h1, h2, h3, h4]

/-- Claim C5 witness: an airport with an Unknown-category Condition and an
airport with no Condition both render the off color. -/
theorem claimC5_witness :
    (ledFrame ⟨true, true, true, 15, 25, false, false, false⟩ true
      (fun a => if a = "KBAD" then some ⟨"", 30, true, 40, true⟩ else none)
      ["KBAD", "KGON"]).get? 1 = some (some Color.clear) :=
  claimC5 ⟨true, true, true, 15, 25, false, false, false⟩ true
    (fun a => if a = "KBAD" then some ⟨"", 30, true, 40, true⟩ else none)
    ["KBAD", "KGON"] 1 "KGON" (by decide) (by decide)
    (fun c h => by simp at h)

/-! ### Claim C4: the safe numeric field normalizers -/

theorem pyTrunc_intCast (n : ℤ) : pyTrunc (n : ℚ) = n := by
  simp [pyTrunc]

theorem pyRound_intCast (n : ℤ) : pyRound (n : ℚ) = n := by
  simp only [pyRound, Int.floor_intCast]
  rw [if_pos]
  rw [sub_self]
  norm_num

/-- Claim C4 (amended): for `None` and for non-numeric text, all three
normalizers return exactly the supplied default; for empty or
whitespace-only strings, `safe_float` returns exactly the default while
`safe_int` and `safe_round` return the integer conversion
(truncation / round-half-to-even) of the default — which equals the
default whenever the default is an integer; for well-formed numeric
strings with surrounding whitespace, all three return the corresponding
conversion of the value of the trimmed numeric text. -/
theorem claimC4_amended :
    (∀ d : ℚ, safe_int PyVal.vNull d = d ∧ safe_float PyVal.vNull d = d ∧
      safe_round PyVal.vNull d = d) ∧
    (∀ (d : ℚ) (s : String), pyStrip s ≠ "" → pyFloatOpt (pyStrip s) = none →
      safe_int (PyVal.vStr s) d = d ∧ safe_float (PyVal.vStr s) d = d ∧
      safe_round (PyVal.vStr s) d = d) ∧
    (∀ (d : ℚ) (s : String), pyStrip s = "" →
      safe_int (PyVal.vStr s) d = ((pyTrunc d : ℤ) : ℚ) ∧
      safe_float (PyVal.vStr s) d = d ∧
      safe_round (PyVal.vStr s) d = ((pyRound d : ℤ) : ℚ)) ∧
    (∀ (n : ℤ) (s : String), pyStrip s = "" →
      safe_int (PyVal.vStr s) ((n : ℤ) : ℚ) = ((n : ℤ) : ℚ) ∧
      safe_round (PyVal.vStr s) ((n : ℤ) : ℚ) = ((n : ℤ) : ℚ)) ∧
    (∀ (d q : ℚ) (s : String), pyFloatOpt (pyStrip s) = some q →
      safe_int (PyVal.vStr s) d = ((pyTrunc q : ℤ) : ℚ) ∧
      safe_float (PyVal.vStr s) d = q ∧
      safe_round (PyVal.vStr s) d = ((pyRound q : ℤ) : ℚ)) := by
  refine ⟨?_, ?_, ?_, ?_, ?_⟩
  · exact fun d => ⟨rfl, rfl, rfl⟩
  · intro d s hne hpf
    refine ⟨?_, ?_, ?_⟩ <;> simp [safe_int, safe_float, safe_round, pyStr, hne, hpf]
  · intro d s hse
    refine ⟨?_, ?_, ?_⟩ <;> simp [safe_int, safe_float, safe_round, pyStr, hse]
  · intro n s hse
    constructor
    · simp [safe_int, pyStr, hse, pyTrunc_intCast]
    · simp [safe_round, pyStr, hse, pyRound_intCast]
  · intro d q s hq
    have hne : pyStrip s ≠ "" := by
      intro h
      rw [h] at hq
      rw [show pyFloatOpt "" = none from rfl] at hq
      exact Option.noConfusion hq
    refine ⟨?_, ?_, ?_⟩ <;> simp [safe_int, safe_float, safe_round, pyStr, hne, hq]

/-- Claim C4 counterexample: on an empty string, `safe_round` with the
non-integer default 2.5 returns `round(2.5) = 2` (half-to-even), not the
supplied default. -/
theorem claimC4_counterexample :
    safe_round (PyVal.vStr "") (5 / 2 : ℚ) = 2 ∧ ((2 : ℚ) ≠ 5 / 2) := by
  constructor
  · show ((pyRound (5 / 2 : ℚ) : ℤ) : ℚ) = 2
    have h : pyRound (5 / 2 : ℚ) = 2 := by norm_num [pyRound]
    rw [h]
    norm_num
  · norm_num

/-- Claim C4 witness: a well-formed numeric string with surrounding
whitespace is parsed to its trimmed value by all three normalizers, and
`None` yields the default. -/
theorem claimC4_witness :
    (safe_int (PyVal.vStr " 15 ") 0 = ((pyTrunc (15 : ℚ) : ℤ) : ℚ) ∧
     safe_float (PyVal.vStr " 15 ") 0 = (15 : ℚ) ∧
     safe_round (PyVal.vStr " 15 ") 0 = ((pyRound (15 : ℚ) : ℤ) : ℚ)) ∧
    (safe_int PyVal.vNull 7 = 7 ∧ safe_float PyVal.vNull 7 = 7 ∧
     safe_round PyVal.vNull 7 = 7) :=
  ⟨claimC4_amended.2.2.2.2 0 15 " 15 " (by decide), claimC4_amended.1 7⟩

/-! ### Claim C7: the gust-blink decision -/

/-- Claim C7 (amended): with the always-blink override disabled the
classifier's `windGust` flag is true exactly when the normalized gust
speed is STRICTLY greater than the configured wind-blink threshold (a
gust exactly at the threshold does not blink); with the override enabled
it is true regardless. -/
theorem claimC7_amended (cfg : Config) (r : RawRecord)
    (hid : safe_str r.icaoId "" ≠ "") :
    ∃ c : Condition,
      (classify cfg [r] none).dict (safe_str r.icaoId "") = some c ∧
      c.windGustSpeed = safe_int r.wgst 0 ∧
      (c.windGust = true ↔
        (cfg.alwaysBlinkForGusts = true ∨ safe_int r.wgst 0 > cfg.windBlinkThreshold)) := by
  refine ⟨⟨safe_str r.fltCat "", safe_int r.wspd 0, windGustFlag cfg r.wgst,
    safe_int r.wgst 0, lightningOf (safe_str r.rawOb "")⟩, ?_, rfl, ?_⟩
  · show (classifyStep cfg none emptyOut r).dict (safe_str r.icaoId "") = _
    simp only [classifyStep]
    rw [if_pos hid]
    simp
  · simp [windGustFlag, Bool.or_eq_true, decide_eq_true_eq]

/-- Claim C7 counterexample: with the override disabled and wind-blink
threshold 15, a normalized gust speed of exactly 15 yields
`windGust = false`, though the claimed `≥` behavior requires true. -/
theorem claimC7_counterexample :
    safe_int (PyVal.vInt 15) 0 = 15 ∧
    (15 : ℚ) ≥ 15 ∧
    windGustFlag ⟨true, true, true, 15, 50, false, false, false⟩ (PyVal.vInt 15) = false := by
  refine ⟨by decide, by decide, by decide⟩

/-- Claim C7 witness: a record with gust 20 over threshold 15 gets a
Condition whose `windGust` flag is governed by the strict comparison. -/
theorem claimC7_witness :
    ∃ c : Condition,
      (classify ⟨true, true, true, 15, 50, false, false, false⟩
        [⟨PyVal.vStr "KTST", PyVal.vInt 10, PyVal.vInt 20, PyVal.vStr "KTST 10SM",
          PyVal.vStr "VFR", PyVal.vInt 40, PyVal.vInt 70⟩] none).dict
        (safe_str (PyVal.vStr "KTST") "") = some c ∧
      c.windGustSpeed =
        safe_int (PyVal.vInt 20) 0 ∧
      (c.windGust = true ↔
        ((⟨true, true, true, 15, 50, false, false, false⟩ : Config).alwaysBlinkForGusts = true ∨
          safe_int (PyVal.vInt 20) 0 >
            (⟨true, true, true, 15, 50, false, false, false⟩ : Config).windBlinkThreshold)) :=
  claimC7_amended ⟨true, true, true, 15, 50, false, false, false⟩
    ⟨PyVal.vStr "KTST", PyVal.vInt 10, PyVal.vInt 20, PyVal.vStr "KTST 10SM",
      PyVal.vStr "VFR", PyVal.vInt 40, PyVal.vInt 70⟩ (by decide)

/-! ### Claim C6: records with an empty identifier -/

theorem classifyStep_dict_eq (cfg : Config) (da : Option (List String))
    (st : ClassifyOut) (r : RawRecord) :
    (classifyStep cfg da st r).dict =
      if safe_str r.icaoId "" ≠ "" then
        (fun k => if k = safe_str r.icaoId "" then
          some { flightCategory := safe_str r.fltCat "", windSpeed := safe_int r.wspd 0,
                 windGust := windGustFlag cfg r.wgst, windGustSpeed := safe_int r.wgst 0,
                 lightning := lightningOf (safe_str r.rawOb "") }
          else st.dict k)
      else st.dict := by
  simp only [classifyStep]
  by_cases hid : safe_str r.icaoId "" ≠ "" <;>
    cases hda : (match da with
      | none => true
      | some l => decide (safe_str r.icaoId "" ∈ l)) <;>
    simp [hid, hda]

theorem classifyStep_meta_eq (cfg : Config) (da : Option (List String))
    (st : ClassifyOut) (r : RawRecord) :
    (classifyStep cfg da st r).meta =
      if safe_str r.icaoId "" ≠ "" then
        st.meta ++ [{ icaoId := safe_str r.icaoId "", lat := safe_float r.lat 0,
                      lon := safe_float r.lon 0, fltCat := safe_str r.fltCat "" }]
      else st.meta := by
  simp only [classifyStep]
  by_cases hid : safe_str r.icaoId "" ≠ "" <;>
    cases hda : (match da with
      | none => true
      | some l => decide (safe_str r.icaoId "" ∈ l)) <;>
    simp [hid, hda]

theorem classifyStep_dict_empty (cfg : Config) (da : Option (List String))
    (st : ClassifyOut) (r : RawRecord) (h : st.dict "" = none) :
    (classifyStep cfg da st r).dict "" = none := by
  rw [classifyStep_dict_eq]
  by_cases hid : safe_str r.icaoId "" ≠ ""
  · rw [if_pos hid]
    have hne : ¬("" = safe_str r.icaoId "") := fun he => hid he.symm
    simp [hne, h]
  · rw [if_neg hid]
    exact h

theorem classifyStep_meta (cfg : Config) (da : Option (List String))
    (st : ClassifyOut) (r : RawRecord) (h : ∀ m ∈ st.meta, m.icaoId ≠ "") :
    ∀ m ∈ (classifyStep cfg da st r).meta, m.icaoId ≠ "" := by
  intro m hm
  rw [classifyStep_meta_eq] at hm
  by_cases hid : safe_str r.icaoId "" ≠ ""
  · rw [if_pos hid] at hm
    rcases List.mem_append.mp hm with hmm | hmm
    · exact h m hmm
    · rw [List.mem_singleton.mp hmm]
      exact hid
  · rw [if_neg hid] at hm
    exact h m hm

theorem classifyStep_stationList (cfg : Config) (st : ClassifyOut) (r : RawRecord) :
    (classifyStep cfg none st r).stationList =
      st.stationList ++ [safe_str r.icaoId ""] := by
  simp only [classifyStep]
  by_cases hid : safe_str r.icaoId "" ≠ "" <;> simp [hid]

theorem classify_go_dict_empty (cfg : Config) (da : Option (List String)) :
    ∀ (recs : List RawRecord) (st : ClassifyOut), st.dict "" = none →
      (recs.foldl (classifyStep cfg da) st).dict "" = none := by
  intro recs
  induction recs with
  | nil => intro st h; exact h
  | cons r rest ih =>
    intro st h
    exact ih (classifyStep cfg da st r) (classifyStep_dict_empty cfg da st r h)

theorem classify_go_meta (cfg : Config) (da : Option (List String)) :
    ∀ (recs : List RawRecord) (st : ClassifyOut), (∀ m ∈ st.meta, m.icaoId ≠ "") →
      ∀ m ∈ (recs.foldl (classifyStep cfg da) st).meta, m.icaoId ≠ "" := by
  intro recs
  induction recs with
  | nil => intro st h; exact h
  | cons r rest ih =>
    intro st h
    exact ih (classifyStep cfg da st r) (classifyStep_meta cfg da st r h)

theorem classify_go_stationList (cfg : Config) :
    ∀ (recs : List RawRecord) (st : ClassifyOut),
      (recs.foldl (classifyStep cfg none) st).stationList =
        st.stationList ++ recs.map (fun r => safe_str r.icaoId "") := by
  intro recs
  induction recs with
  | nil => intro st; simp
  | cons r rest ih =>
    intro st
    rw [List.foldl_cons, ih (classifyStep cfg none st r), classifyStep_stationList,
      List.map_cons, List.append_assoc, List.singleton_append]

/-- Claim C6 (amended): a record with an empty normalized identifier never
contributes a Condition entry (the map has no entry at the empty key) and
never contributes a StationMeta entry, but its empty identifier IS still
appended to the display list when no display-subset file is configured:
with no subset, the display list is the normalized identifiers of ALL
payload records, empty ones included. -/
theorem claimC6_amended (cfg : Config) (recs : List RawRecord)
    (da : Option (List String)) :
    (classify cfg recs da).dict "" = none ∧
    ((classify cfg recs da).meta.all fun m => decide (m.icaoId ≠ "")) = true ∧
    (classify cfg recs none).stationList =
      recs.map (fun r => safe_str r.icaoId "") := by
  refine ⟨?_, ?_, ?_⟩
  · exact classify_go_dict_empty cfg da recs emptyOut rfl
  · rw [List.all_eq_true]
    intro m hm
    exact decide_eq_true
      (classify_go_meta cfg da recs emptyOut (by simp [emptyOut]) m hm)
  · rw [classify, classify_go_stationList cfg recs emptyOut]
    rfl

/-- Claim C6 counterexample: a payload record whose identifier is null
(normalized to the empty string) is dropped from the Condition map and
StationMeta list, yet its empty identifier appears in the display list
when no display-subset file is present — contradicting the claim that
such a record appears in none of the three outputs. -/
theorem claimC6_counterexample :
    "" ∈ (classify ⟨true, true, true, 15, 50, false, false, false⟩
      [⟨PyVal.vNull, PyVal.vInt 0, PyVal.vInt 0, PyVal.vStr "",
        PyVal.vStr "", PyVal.vInt 0, PyVal.vInt 0⟩] none).stationList := by
  decide

/-! ### Claim C3: the nearest-station fallback resolver -/

theorem nearestGo_spec (d : StationMeta → ℝ) :
    ∀ (refs : List StationMeta) (b : StationMeta),
      (nearestGo d b refs = b ∧ ∀ x ∈ refs, d b ≤ d x) ∨
      (∃ l₁ l₂, refs = l₁ ++ nearestGo d b refs :: l₂ ∧
        d (nearestGo d b refs) < d b ∧
        (∀ x ∈ l₁, d (nearestGo d b refs) < d x) ∧
        (∀ x ∈ l₂, d (nearestGo d b refs) ≤ d x)) := by
  intro refs
  induction refs with
  | nil =>
    intro b
    left
    exact ⟨rfl, by simp⟩
  | cons ref rest ih =>
    intro b
    by_cases h : d ref < d b
    · rw [show nearestGo d b (ref :: rest) = nearestGo d ref rest from by
        rw [nearestGo, if_pos h]]
      rcases ih ref with ⟨heq, hall⟩ | ⟨l₁, l₂, hsplit, hlt, h₁, h₂⟩
      · right
        refine ⟨[], rest, ?_, ?_, by simp, ?_⟩
        · rw [heq]
          rfl
        · rw [heq]
          exact h
        · rw [heq]
          exact hall
      · right
        refine ⟨ref :: l₁, l₂, ?_, lt_trans hlt h, ?_, h₂⟩
        · rw [List.cons_append, ← hsplit]
        · intro x hx
          rcases List.mem_cons.mp hx with rfl | hx
          · exact hlt
          · exact h₁ x hx
    · have hle : d b ≤ d ref := not_lt.mp h
      rw [show nearestGo d b (ref :: rest) = nearestGo d b rest from by
        rw [nearestGo, if_neg h]]
      rcases ih b with ⟨heq, hall⟩ | ⟨l₁, l₂, hsplit, hlt, h₁, h₂⟩
      · left
        refine ⟨heq, ?_⟩
        intro x hx
        rcases List.mem_cons.mp hx with rfl | hx
        · exact hle
        · exact hall x hx
      · right
        refine ⟨ref :: l₁, l₂, ?_, hlt, ?_, h₂⟩
        · rw [List.cons_append, ← hsplit]
        · intro x hx
          rcases List.mem_cons.mp hx with rfl | hx
          · exact lt_of_lt_of_le hlt hle
          · exact h₁ x hx

theorem nearestRef_none (d : StationMeta → ℝ) (l : List StationMeta) :
    nearestRef d l = none ↔ l = [] := by
  cases l <;> simp [nearestRef]

theorem nearestRef_spec (d : StationMeta → ℝ) (refs : List StationMeta)
    (r : StationMeta) (h : nearestRef d refs = some r) :
    ∃ l₁ l₂, refs = l₁ ++ r :: l₂ ∧ (∀ x ∈ refs, d r ≤ d x) ∧
      (∀ x ∈ l₁, d r < d x) := by
  cases refs with
  | nil => exact Option.noConfusion h
  | cons ref rest =>
    simp only [nearestRef, Option.some.injEq] at h
    rcases nearestGo_spec d rest ref with ⟨heq, hall⟩ | ⟨l₁, l₂, hsplit, hlt, h₁, h₂⟩
    · have hr : r = ref := by rw [← h, heq]
      subst hr
      refine ⟨[], rest, by simp, ?_, by simp⟩
      intro x hx
      rcases List.mem_cons.mp hx with rfl | hx
      · exact le_refl _
      · exact hall x hx
    · rw [h] at hsplit hlt h₁ h₂
      refine ⟨ref :: l₁, l₂, ?_, ?_, ?_⟩
      · rw [List.cons_append, ← hsplit]
      · intro x hx
        rcases List.mem_cons.mp hx with rfl | hx
        · exact le_of_lt hlt
        · rw [hsplit] at hx
          rcases List.mem_append.mp hx with hx | hx
          · exact le_of_lt (h₁ x hx)
          · rcases List.mem_cons.mp hx with rfl | hx
            · exact le_refl _
            · exact h₂ x hx
      · intro x hx
        rcases List.mem_cons.mp hx with rfl | hx
        · exact hlt
        · exact h₁ x hx

/-- Claim C3: with the feature enabled, a station with empty category,
non-zero coordinates and at least one valid reference gets its category
overwritten with the category of the haversine-nearest valid reference,
ties broken in favor of the first encountered minimum (every strictly
earlier reference is strictly farther); with the feature disabled, with no
valid reference, or for a station that already has a category or lacks
coordinates, the category is left unchanged. -/
theorem claimC3 (enabled : Bool) (metas : List StationMeta) (s : StationMeta) :
    (enabled = true → s.fltCat = "" → s.lat ≠ 0 → s.lon ≠ 0 →
      validStations metas ≠ [] →
      ∃ l₁ r l₂, validStations metas = l₁ ++ r :: l₂ ∧
        resolvedCat enabled metas s = r.fltCat ∧
        (∀ x ∈ validStations metas,
          haversine s.lat s.lon r.lat r.lon ≤ haversine s.lat s.lon x.lat x.lon) ∧
        (∀ x ∈ l₁,
          haversine s.lat s.lon r.lat r.lon < haversine s.lat s.lon x.lat x.lon)) ∧
    (enabled = false → resolvedCat enabled metas s = s.fltCat) ∧
    (validStations metas = [] → resolvedCat enabled metas s = s.fltCat) ∧
    (s.fltCat ≠ "" → resolvedCat enabled metas s = s.fltCat) := by
  refine ⟨?_, ?_, ?_, ?_⟩
  · intro he hcat hlat hlon hvalid
    have hcond : s.fltCat = "" ∧ s.lat ≠ 0 ∧ s.lon ≠ 0 ∧
        validStations metas ≠ [] ∧ enabled = true :=
      ⟨hcat, hlat, hlon, hvalid, he⟩
    cases hnr : nearestRef (fun r => haversine s.lat s.lon r.lat r.lon)
        (validStations metas) with
    | none => exact absurd ((nearestRef_none _ _).mp hnr) hvalid
    | some r =>
      obtain ⟨l₁, l₂, hsplit, hmin, hfirst⟩ :=
        nearestRef_spec (fun x => haversine s.lat s.lon x.lat x.lon)
          (validStations metas) r hnr
      refine ⟨l₁, r, l₂, hsplit, ?_, hmin, hfirst⟩
      simp only [resolvedCat]
      rw [if_pos hcond, hnr]
  · intro he
    simp only [resolvedCat]
    rw [if_neg]
    rintro ⟨-, -, -, -, h⟩
    rw [he] at h
    exact Bool.noConfusion h
  · intro hv
    simp only [resolvedCat]
    rw [if_neg]
    rintro ⟨-, -, -, h, -⟩
    exact h hv
  · intro hc
    simp only [resolvedCat]
    rw [if_neg]
    rintro ⟨h, -, -, -, -⟩
    exact hc h

/-- Claim C3 witness: a station with empty category at (2,2) is resolved
to the category of the only valid reference. -/
theorem claimC3_witness :
    ∃ l₁ r l₂,
      validStations [{ icaoId := "KREF", lat := 1, lon := 1, fltCat := "VFR" }] =
        l₁ ++ r :: l₂ ∧
      resolvedCat true [{ icaoId := "KREF", lat := 1, lon := 1, fltCat := "VFR" }]
        { icaoId := "KMIS", lat := 2, lon := 2, fltCat := "" } = r.fltCat ∧
      (∀ x ∈ validStations [{ icaoId := "KREF", lat := 1, lon := 1, fltCat := "VFR" }],
        haversine 2 2 r.lat r.lon ≤ haversine 2 2 x.lat x.lon) ∧
      (∀ x ∈ l₁, haversine 2 2 r.lat r.lon < haversine 2 2 x.lat x.lon) :=
  (claimC3 true [{ icaoId := "KREF", lat := 1, lon := 1, fltCat := "VFR" }]
    { icaoId := "KMIS", lat := 2, lon := 2, fltCat := "" }).1
    rfl rfl (by norm_num) (by norm_num) (by decide)

/-! ### Claim C8: too many airports for the configured LED count -/

/-- Claim C8 (amended): if the airport list is longer than the configured
LED count, the script prints the warning and terminates immediately — no
fetch, no parsing, no fallback resolution, no animation, and the external
display is never initialized — but the LED strip object has already been
initialized before the check runs (`metar.py` line 136 precedes the check
at line 152). -/
theorem claimC8_amended (airports : List String) (ledCount : ℕ) (ext : Bool)
    (h : airports.length > ledCount) :
    startupTrace airports ledCount ext =
      [.printHeader, .ledInit, .readAirports, .readDisplayAirports,
       .warnTooMany, .quitEarly] ∧
    StartupEvent.fetchData ∉ startupTrace airports ledCount ext ∧
    StartupEvent.parseData ∉ startupTrace airports ledCount ext ∧
    StartupEvent.displayInit ∉ startupTrace airports ledCount ext ∧
    StartupEvent.animate ∉ startupTrace airports ledCount ext ∧
    StartupEvent.ledInit ∈ startupTrace airports ledCount ext := by
  have ht : startupTrace airports ledCount ext =
      [.printHeader, .ledInit, .readAirports, .readDisplayAirports,
       .warnTooMany, .quitEarly] := by
    simp [startupTrace, if_pos h]
  refine ⟨ht, ?_, ?_, ?_, ?_, ?_⟩ <;> rw [ht] <;> decide

/-- Claim C8 counterexample: in a run that violates the precondition (2
airports, 1 LED) and therefore quits, the LED-strip initialization occurs
in the trace strictly before the early exit — the process does not exit
before the LED hardware is touched. -/
theorem claimC8_counterexample :
    StartupEvent.quitEarly ∈ startupTrace ["KAAA", "KBBB"] 1 false ∧
    List.indexOf StartupEvent.ledInit (startupTrace ["KAAA", "KBBB"] 1 false) <
      List.indexOf StartupEvent.quitEarly (startupTrace ["KAAA", "KBBB"] 1 false) := by
  decide

/-- Claim C8 witness: the amended statement at 2 airports and LED count 1. -/
theorem claimC8_witness :
    startupTrace ["KAAA", "KBBB"] 1 true =
      [.printHeader, .ledInit, .readAirports, .readDisplayAirports,
       .warnTooMany, .quitEarly] ∧
    StartupEvent.fetchData ∉ startupTrace ["KAAA", "KBBB"] 1 true ∧
    StartupEvent.parseData ∉ startupTrace ["KAAA", "KBBB"] 1 true ∧
    StartupEvent.displayInit ∉ startupTrace ["KAAA", "KBBB"] 1 true ∧
    StartupEvent.animate ∉ startupTrace ["KAAA", "KBBB"] 1 true ∧
    StartupEvent.ledInit ∈ startupTrace ["KAAA", "KBBB"] 1 true :=
  claimC8_amended ["KAAA", "KBBB"] 1 true (by decide)

/-! ### Claim C9: the animation loop tick budget -/

theorem ticksRun_eq (n : ℤ) : ticksRun n = n.toNat := by
  suffices h : ∀ (k : ℕ) (n : ℤ), n.toNat = k → ticksRun n = k from h n.toNat n rfl
  intro k
  induction k with
  | zero =>
    intro n hn
    rw [ticksRun, dif_neg (by omega)]
  | succ k ih =>
    intro n hn
    rw [ticksRun, dif_pos (by omega), ih (n - 1) (by omega)]

/-- Claim C9: the loop runs exactly `round(BLINK_TOTALTIME_SECONDS /
BLINK_SPEED)` ticks when wind animation, lightning animation or the
external display is enabled (whenever that rounding is positive), exactly
1 tick otherwise, and the decrement-until-zero loop executes exactly its
positive initial count of body iterations. -/
theorem claimC9 :
    (∀ (cfg : Config) (total speed : ℚ),
      (cfg.activateWindAnimation || cfg.activateLightningAnimation ||
        cfg.activateExternalDisplay) = true →
      0 < pyRound (total / speed) →
      ticksRun (loopLimit cfg total speed) = (pyRound (total / speed)).toNat) ∧
    (∀ (cfg : Config) (total speed : ℚ),
      (cfg.activateWindAnimation || cfg.activateLightningAnimation ||
        cfg.activateExternalDisplay) = false →
      ticksRun (loopLimit cfg total speed) = 1) ∧
    (∀ n : ℤ, 0 < n → ticksRun n = n.toNat) := by
  refine ⟨?_, ?_, fun n _ => ticksRun_eq n⟩
  · intro cfg t sp h hpos
    rw [loopLimit, if_pos h, ticksRun_eq]
  · intro cfg t sp h
    rw [loopLimit, if_neg (by simp [h]), ticksRun_eq]
    rfl

/-- Claim C9 witness: with wind animation on, total time 2 and blink
speed 1, the loop runs `round(2 / 1) = 2` ticks. -/
theorem claimC9_witness :
    0 < pyRound ((2 : ℚ) / 1) ∧
    ticksRun (loopLimit ⟨true, false, false, 15, 50, false, false, false⟩ 2 1) =
      (pyRound ((2 : ℚ) / 1)).toNat :=
  ⟨by norm_num [pyRound],
   claimC9.1 ⟨true, false, false, 15, 50, false, false, false⟩ 2 1 rfl
     (by norm_num [pyRound])⟩

/-! ### Claim C10: the rotating-display index -/

/-- Claim C10: the rotation of `displayAirportCounter` keeps the index
within the bounds of `display_list` (it starts at 0 and every step stays
in `[0, numAirports)` whenever `numAirports` is positive), so indexing
`station_list` with it is safe only when every display-subset entry was
actually parsed; and there is an input — a subset entry not returned by
the fetch — for which the index reaches a position outside
`station_list`. -/
theorem claimC10 :
    (∀ n c : ℤ, 0 < n → 0 ≤ c → c < n → 0 ≤ rotateStep n c ∧ rotateStep n c < n) ∧
    ((classify ⟨false, false, false, 15, 50, false, true, false⟩
        [⟨PyVal.vStr "KAAA", PyVal.vInt 5, PyVal.vInt 0, PyVal.vStr "CLR",
          PyVal.vStr "VFR", PyVal.vInt 10, PyVal.vInt 20⟩]
        (some ["KAAA", "KBBB"])).stationList = ["KAAA"] ∧
      displayList (some ["KAAA", "KBBB"])
        (classify ⟨false, false, false, 15, 50, false, true, false⟩
          [⟨PyVal.vStr "KAAA", PyVal.vInt 5, PyVal.vInt 0, PyVal.vStr "CLR",
            PyVal.vStr "VFR", PyVal.vInt 10, PyVal.vInt 20⟩]
          (some ["KAAA", "KBBB"])).stationList = ["KAAA", "KBBB"] ∧
      rotateStep ((2 : ℤ)) 0 = 1 ∧
      ((classify ⟨false, false, false, 15, 50, false, true, false⟩
        [⟨PyVal.vStr "KAAA", PyVal.vInt 5, PyVal.vInt 0, PyVal.vStr "CLR",
          PyVal.vStr "VFR", PyVal.vInt 10, PyVal.vInt 20⟩]
        (some ["KAAA", "KBBB"])).stationList.get? 1 = none)) := by
  constructor
  · intro n c hn hc hcn
    simp only [rotateStep]
    split
    · omega
    · omega
  · refine ⟨by decide, by decide, by decide, by decide⟩

/-- Claim C10 witness: one rotation step with two display entries from
index 0 stays within bounds. -/
theorem claimC10_witness :
    0 ≤ rotateStep 2 0 ∧ rotateStep 2 0 < 2 :=
  claimC10.1 2 0 (by decide) (by decide) (by decide)

end METARMap
